import Mathlib

/-!
Shallow embedding of the TRADINGBOT repository's core pipeline:
risk gate (`risk_manager.py`), order lifecycle (`trade_executor.py`),
rolling window and volatility-expansion deriver
(`modules/fast_market_listener.py`), order-book imbalance
(`modules/orderbook_engine.py`), microstructure signal
(`modules/microstructure_model.py`), signal fusion
(`strategy_manager.py`), and the websocket feed reconnect loop
(`websocket_price_feed.py`).

Python floats are modelled as rationals (`ℚ`), except where the code
takes a square root (`np.std`), where reals are used.  Python dict
fields that may be absent are modelled as `Option`; Python truthiness
of an optional float (`if x:`) is `some v` with `v ≠ 0`.
-/

namespace TradingBot

/-! ## Risk manager (`src/risk_manager.py`) -/

/-- Tags identifying each message appended to `checks['errors']` /
`checks['warnings']` by `RiskManager.run_safety_checks`.  The Python
code appends formatted strings; only their identity matters here. -/
inductive RiskTag where
  | paused
  | dailyTradeLimit
  | positionSize
  | suggestedPositionSize
  | dailyLossLimit
  | approachingDailyLoss
  | volatilityExceeds
  | highVolatility
  | oiCollapsing
  | oiDeclining
  | negSentimentDominance
  | negSentimentDetected
  | balanceNonPositive
  | amountExceedsBalance
  | suggestedAmount
  deriving DecidableEq, Repr

/-- `RiskManager.default_config` / `self.config`. -/
structure RiskConfig where
  max_daily_trades : Nat
  max_daily_loss_percentage : ℚ
  max_position_size_percentage : ℚ
  volatility_threshold : ℚ
  stop_trading_on_loss : Bool
  deriving DecidableEq, Repr

/-- `RiskManager.default_config`. -/
def default_config : RiskConfig :=
  { max_daily_trades := 50
    max_daily_loss_percentage := 1/4
    max_position_size_percentage := 3/10
    volatility_threshold := 1/10
    stop_trading_on_loss := true }

/-- `self.daily_stats` (the `last_reset` date is abstracted out; the
daily-rollover comparison enters `run_safety_checks` as the boolean
input `resetDue`). -/
structure DailyStats where
  trades : Nat
  loss : ℚ
  start_balance : Option ℚ
  deriving DecidableEq, Repr

/-- Mutable state of a `RiskManager`: daily stats plus the pause flag. -/
structure RiskState where
  stats : DailyStats
  is_trading_paused : Bool
  deriving DecidableEq, Repr

/-- State of a freshly constructed `RiskManager`. -/
def initRiskState : RiskState :=
  { stats := { trades := 0, loss := 0, start_balance := none }
    is_trading_paused := false }

/-- Python truthiness of an optional float: `None` and `0.0` are falsy. -/
def truthy (o : Option ℚ) : Bool :=
  match o with
  | none => false
  | some v => v != 0

/-- The structured result dict built by `run_safety_checks`
(`adjusted_trade` is tracked through its `amount` field, the only one
the code rewrites). -/
structure SafetyChecks where
  allowed : Bool
  warnings : List RiskTag
  errors : List RiskTag
  adjusted_amount : ℚ
  deriving DecidableEq, Repr

/-- `position_size_percentage > max_position_size_percentage` (the
position-size check's condition; `position_size_percentage` is
`amount / balance` when `balance > 0` else `0`). -/
def pos_fail (cfg : RiskConfig) (amount balance : ℚ) : Bool :=
  decide (cfg.max_position_size_percentage <
    (if 0 < balance then amount / balance else 0))

/-- Entries the position-size check appends to `errors`. -/
def pos_errors (pf : Bool) : List RiskTag :=
  if pf then [.positionSize] else []

/-- Entries the position-size check appends to `warnings`. -/
def pos_warnings (pf : Bool) : List RiskTag :=
  if pf then [.suggestedPositionSize] else []

/-- `checks['adjusted_trade']['amount']` after the position-size check. -/
def pos_adjusted (cfg : RiskConfig) (amount balance : ℚ) (pf : Bool) : ℚ :=
  if pf then balance * cfg.max_position_size_percentage else amount

/-- Soft warning of the daily-loss check. -/
def loss_warning (b : Bool) : List RiskTag :=
  if b then [.approachingDailyLoss] else []

/-- Soft warning of the volatility check. -/
def vol_warning (b : Bool) : List RiskTag :=
  if b then [.highVolatility] else []

/-- Hard condition of the open-interest check (`oi_change < -0.15`). -/
def oi_hard (oiChange : Option ℚ) : Bool :=
  match oiChange with
  | some oc => decide (oc < -(15/100))
  | none => false

/-- Soft warning of the open-interest check (`oi_change < -0.10`). -/
def oi_warning (oiChange : Option ℚ) : List RiskTag :=
  match oiChange with
  | some oc => if oc < -(10/100) then [.oiDeclining] else []
  | none => []

/-- Hard condition of the sentiment check (`sentiment < -0.3`). -/
def sent_hard (sentiment : Option ℚ) : Bool :=
  match sentiment with
  | some sc => decide (sc < -(3/10))
  | none => false

/-- Soft warning of the sentiment check (`sentiment < -0.2`). -/
def sent_warning (sentiment : Option ℚ) : List RiskTag :=
  match sentiment with
  | some sc => if sc < -(2/10) then [.negSentimentDetected] else []
  | none => []

/-- `RiskManager.run_safety_checks(trade, portfolio, market_data,
oi_data, sentiment_data)`.  Inputs: `amount = trade.get('amount', 0)`,
`balanceOpt = portfolio.get('balance')`,
`volatilityOpt = market_data.get('volatility')`,
`oiChange = oi_data['oi_change']` when present,
`sentiment = sentiment_data['sentiment_score']` when present, and
`resetDue = check_daily_reset()`.  Returns the checks dict together
with the risk state after the call (reset / pause-flag mutations).
The early `return checks` statements of the source become the
early-exit branches below, in the same order. -/
def run_safety_checks (cfg : RiskConfig) (st : RiskState) (resetDue : Bool)
    (amount : ℚ) (balanceOpt : Option ℚ)
    (volatilityOpt : Option ℚ) (oiChange : Option ℚ) (sentiment : Option ℚ) :
    SafetyChecks × RiskState :=
  -- `if self.is_trading_paused:` ... `return checks`
  if st.is_trading_paused then
    (⟨false, [], [.paused], amount⟩, st)
  else
  -- `if self.check_daily_reset() and portfolio.get('balance'):` reset
  let st := if resetDue && truthy balanceOpt then
      ({ stats := { trades := 0, loss := 0, start_balance := balanceOpt }
         is_trading_paused := false } : RiskState)
    else st
  -- `if self.daily_stats['trades'] >= self.config['max_daily_trades']:` return
  if cfg.max_daily_trades ≤ st.stats.trades then
    (⟨false, [], [.dailyTradeLimit], amount⟩, st)
  else
  -- position-size check: appends but does NOT return
  let balance := balanceOpt.getD 1
  let pf := pos_fail cfg amount balance
  -- `if self.daily_stats['start_balance']:` daily loss limit
  let sb := st.stats.start_balance.getD 1
  let loss_percentage := max 0 (sb - balance) / sb
  if truthy st.stats.start_balance &&
      decide (cfg.max_daily_loss_percentage ≤ loss_percentage) then
    (⟨false, pos_warnings pf, pos_errors pf ++ [.dailyLossLimit],
      pos_adjusted cfg amount balance pf⟩,
      if cfg.stop_trading_on_loss then { st with is_trading_paused := true } else st)
  else
  let warnings1 := pos_warnings pf ++
    loss_warning (truthy st.stats.start_balance &&
      decide (cfg.max_daily_loss_percentage * (8/10) < loss_percentage))
  -- `if volatility > self.config['volatility_threshold']:` return
  let volatility := volatilityOpt.getD 0
  if cfg.volatility_threshold < volatility then
    (⟨false, warnings1, pos_errors pf ++ [.volatilityExceeds],
      pos_adjusted cfg amount balance pf⟩, st)
  else
  let warnings2 := warnings1 ++
    vol_warning (decide (cfg.volatility_threshold * (7/10) < volatility))
  -- `if oi_data and 'oi_change' in oi_data:` OI collapsing
  if oi_hard oiChange then
    (⟨false, warnings2, pos_errors pf ++ [.oiCollapsing],
      pos_adjusted cfg amount balance pf⟩, st)
  else
  let warnings3 := warnings2 ++ oi_warning oiChange
  -- `if sentiment_data and 'sentiment_score' in sentiment_data:` sentiment
  if sent_hard sentiment then
    (⟨false, warnings3, pos_errors pf ++ [.negSentimentDominance],
      pos_adjusted cfg amount balance pf⟩, st)
  else
  let warnings4 := warnings3 ++ sent_warning sentiment
  -- `if balance <= 0:` return
  if balance ≤ 0 then
    (⟨false, warnings4, pos_errors pf ++ [.balanceNonPositive],
      pos_adjusted cfg amount balance pf⟩, st)
  else
  -- `if trade.get('amount', 0) > balance:` appends, no return
  if balance < amount then
    (⟨false, warnings4 ++ [.suggestedAmount],
      pos_errors pf ++ [.amountExceedsBalance], balance * (95/100)⟩, st)
  else
    (⟨!pf, warnings4, pos_errors pf, pos_adjusted cfg amount balance pf⟩, st)

/-- Membership characterization for `pos_errors`. -/
theorem mem_pos_errors {t : RiskTag} {pf : Bool} :
    t ∈ pos_errors pf ↔ pf = true ∧ t = .positionSize := by
  cases pf <;> simp [pos_errors]

/-- Membership characterization for `pos_warnings`. -/
theorem mem_pos_warnings {t : RiskTag} {pf : Bool} :
    t ∈ pos_warnings pf ↔ pf = true ∧ t = .suggestedPositionSize := by
  cases pf <;> simp [pos_warnings]

/-- Membership characterization for `loss_warning`. -/
theorem mem_loss_warning {t : RiskTag} {b : Bool} :
    t ∈ loss_warning b ↔ b = true ∧ t = .approachingDailyLoss := by
  cases b <;> simp [loss_warning]

/-- Membership characterization for `vol_warning`. -/
theorem mem_vol_warning {t : RiskTag} {b : Bool} :
    t ∈ vol_warning b ↔ b = true ∧ t = .highVolatility := by
  cases b <;> simp [vol_warning]

/-- Membership characterization for `oi_warning`. -/
theorem mem_oi_warning {t : RiskTag} {o : Option ℚ} :
    t ∈ oi_warning o ↔ ∃ oc, o = some oc ∧ oc < -(10/100) ∧ t = .oiDeclining := by
  cases o with
  | none => simp [oi_warning]
  | some oc =>
    simp only [oi_warning]
    split <;> simp_all

/-- Membership characterization for `sent_warning`. -/
theorem mem_sent_warning {t : RiskTag} {o : Option ℚ} :
    t ∈ sent_warning o ↔ ∃ sc, o = some sc ∧ sc < -(2/10) ∧ t = .negSentimentDetected := by
  cases o with
  | none => simp [sent_warning]
  | some sc =>
    simp only [sent_warning]
    split <;> simp_all

/-- C1 (counterexample): with the default config, a fresh risk state,
trade amount 350, balance 1000 and market volatility 0.08, the
position-size check rejects the trade (35% > 30%) but evaluation does
NOT short-circuit: the volatility check still runs and appends its
high-volatility soft warning, so the returned entries are not limited
to checks up to and including the first failing one. -/
theorem position_size_check_does_not_short_circuit :
    ((run_safety_checks default_config initRiskState false 350 (some 1000)
        (some (8/100)) none none).1.allowed = false) ∧
    RiskTag.positionSize ∈ (run_safety_checks default_config initRiskState false 350 (some 1000)
        (some (8/100)) none none).1.errors ∧
    RiskTag.highVolatility ∈ (run_safety_checks default_config initRiskState false 350 (some 1000)
        (some (8/100)) none none).1.warnings := by
  refine ⟨?_, ?_, ?_⟩ <;>
    norm_num [run_safety_checks, default_config, initRiskState, truthy, pos_fail,
      pos_errors, pos_warnings, pos_adjusted, loss_warning, vol_warning,
      oi_hard, oi_warning, sent_hard, sent_warning]

set_option maxHeartbeats 4000000 in
/-- C1 (amended): every hard failure of `run_safety_checks` EXCEPT the
position-size check short-circuits evaluation — when the pause,
daily-trade-count, daily-loss, volatility, open-interest, sentiment,
or non-positive-balance check fails hard, the result contains no entry
produced by any later check.  (A position-size rejection, by contrast,
does not stop evaluation, and the trade-amount check is last.) -/
theorem run_safety_checks_fail_fast_except_position_size
    (cfg : RiskConfig) (st : RiskState) (resetDue : Bool)
    (amount : ℚ) (balanceOpt volatilityOpt oiChange sentiment : Option ℚ)
    (p : SafetyChecks × RiskState)
    (h : run_safety_checks cfg st resetDue amount balanceOpt
        volatilityOpt oiChange sentiment = p) :
    (st.is_trading_paused = true →
      p.1 = ⟨false, [], [.paused], amount⟩ ∧ p.2 = st) ∧
    (RiskTag.dailyTradeLimit ∈ p.1.errors →
      p.1.allowed = false ∧ p.1.errors = [.dailyTradeLimit] ∧ p.1.warnings = []) ∧
    (RiskTag.dailyLossLimit ∈ p.1.errors →
      p.1.allowed = false ∧
      RiskTag.volatilityExceeds ∉ p.1.errors ∧ RiskTag.highVolatility ∉ p.1.warnings ∧
      RiskTag.oiCollapsing ∉ p.1.errors ∧ RiskTag.oiDeclining ∉ p.1.warnings ∧
      RiskTag.negSentimentDominance ∉ p.1.errors ∧
      RiskTag.negSentimentDetected ∉ p.1.warnings ∧
      RiskTag.balanceNonPositive ∉ p.1.errors ∧
      RiskTag.amountExceedsBalance ∉ p.1.errors ∧
      RiskTag.suggestedAmount ∉ p.1.warnings) ∧
    (RiskTag.volatilityExceeds ∈ p.1.errors →
      p.1.allowed = false ∧
      RiskTag.oiCollapsing ∉ p.1.errors ∧ RiskTag.oiDeclining ∉ p.1.warnings ∧
      RiskTag.negSentimentDominance ∉ p.1.errors ∧
      RiskTag.negSentimentDetected ∉ p.1.warnings ∧
      RiskTag.balanceNonPositive ∉ p.1.errors ∧
      RiskTag.amountExceedsBalance ∉ p.1.errors ∧
      RiskTag.suggestedAmount ∉ p.1.warnings) ∧
    (RiskTag.oiCollapsing ∈ p.1.errors →
      p.1.allowed = false ∧
      RiskTag.negSentimentDominance ∉ p.1.errors ∧
      RiskTag.negSentimentDetected ∉ p.1.warnings ∧
      RiskTag.balanceNonPositive ∉ p.1.errors ∧
      RiskTag.amountExceedsBalance ∉ p.1.errors ∧
      RiskTag.suggestedAmount ∉ p.1.warnings) ∧
    (RiskTag.negSentimentDominance ∈ p.1.errors →
      p.1.allowed = false ∧
      RiskTag.balanceNonPositive ∉ p.1.errors ∧
      RiskTag.amountExceedsBalance ∉ p.1.errors ∧
      RiskTag.suggestedAmount ∉ p.1.warnings) ∧
    (RiskTag.balanceNonPositive ∈ p.1.errors →
      p.1.allowed = false ∧
      RiskTag.amountExceedsBalance ∉ p.1.errors ∧
      RiskTag.suggestedAmount ∉ p.1.warnings) := by
  simp only [run_safety_checks] at h
  repeat' split at h
  all_goals subst h
  all_goals
    simp_all [mem_pos_errors, mem_pos_warnings, mem_loss_warning, mem_vol_warning,
      mem_oi_warning, mem_sent_warning]

/-- Witness for `run_safety_checks_fail_fast_except_position_size`:
a paused manager rejects with exactly the pause error. -/
theorem run_safety_checks_fail_fast_witness :
    (run_safety_checks default_config
        ⟨⟨0, 0, none⟩, true⟩ false 100 (some 1000) none none none).1 =
      ⟨false, [], [.paused], 100⟩ :=
  ((run_safety_checks_fail_fast_except_position_size default_config
      ⟨⟨0, 0, none⟩, true⟩ false 100 (some 1000) none none none _ rfl).1 rfl).1

/-- C3 (counterexample): with the default config (volatility threshold
0.10), market volatility exactly equal to the threshold is NOT
rejected — the source tests `volatility > threshold` strictly — and
only the soft high-volatility warning is emitted. -/
theorem volatility_equal_threshold_not_rejected :
    default_config.volatility_threshold = 1/10 ∧
    ((run_safety_checks default_config initRiskState false 100 (some 1000)
        (some (1/10)) none none).1.allowed = true) ∧
    ((run_safety_checks default_config initRiskState false 100 (some 1000)
        (some (1/10)) none none).1.errors = []) ∧
    ((run_safety_checks default_config initRiskState false 100 (some 1000)
        (some (1/10)) none none).1.warnings = [.highVolatility]) := by
  refine ⟨rfl, ?_, ?_, ?_⟩ <;>
    norm_num [run_safety_checks, default_config, initRiskState, truthy, pos_fail,
      pos_errors, pos_warnings, pos_adjusted, loss_warning, vol_warning,
      oi_hard, oi_warning, sent_hard, sent_warning]

/-- C3 (amended): the volatility check rejects only for volatility
STRICTLY above the configured threshold; volatility in
`(0.7·threshold, threshold]` — including exactly the threshold —
yields only the soft warning and the trade stays allowed. -/
theorem volatility_threshold_is_strict
    (cfg : RiskConfig) (st : RiskState) (amount b v : ℚ)
    (p : SafetyChecks × RiskState)
    (hp : st.is_trading_paused = false)
    (ht : st.stats.trades < cfg.max_daily_trades)
    (hsb : st.stats.start_balance = none)
    (hbpos : 0 < b)
    (hpos : amount ≤ cfg.max_position_size_percentage * b)
    (hamt : amount ≤ b)
    (h : run_safety_checks cfg st false amount (some b) (some v) none none = p) :
    (cfg.volatility_threshold < v →
      p.1.allowed = false ∧ p.1.errors = [.volatilityExceeds]) ∧
    (cfg.volatility_threshold * (7/10) < v ∧ v ≤ cfg.volatility_threshold →
      p.1.allowed = true ∧ p.1.errors = [] ∧ p.1.warnings = [.highVolatility]) ∧
    (v = cfg.volatility_threshold →
      p.1.allowed = true ∧ p.1.errors = []) := by
  have hpf : pos_fail cfg amount b = false := by
    simp only [pos_fail, if_pos hbpos, decide_eq_false_iff_not, not_lt]
    rw [div_le_iff₀ hbpos]
    exact hpos
  simp only [run_safety_checks, hp, hsb, Bool.false_and, Bool.and_self, if_neg,
    Bool.false_eq_true, not_false_eq_true, Option.getD_some, hpf, truthy,
    Bool.false_and, if_false, loss_warning, pos_errors, pos_warnings, pos_adjusted,
    oi_hard, oi_warning, sent_hard, sent_warning] at h
  rw [if_neg (Nat.not_le.mpr ht), if_neg (not_le.mpr hbpos), if_neg (not_lt.mpr hamt)] at h
  split at h
  next hv =>
    subst h
    exact ⟨fun _ => ⟨rfl, by simp⟩, fun h2 => absurd h2.2 (not_le.mpr hv),
      fun hveq => absurd hveq (ne_of_gt hv)⟩
  next hv =>
    subst h
    refine ⟨fun hlt => absurd hlt hv, fun h2 => ?_, fun hveq => ?_⟩
    · simp [vol_warning, h2.1]
    · subst hveq
      simp [vol_warning]

/-- Witness for `volatility_threshold_is_strict`: default config,
volatility 0.11 > threshold 0.10 rejects the trade. -/
theorem volatility_threshold_is_strict_witness :
    ((run_safety_checks default_config initRiskState false 100 (some 1000)
        (some (11/100)) none none).1.allowed = false) ∧
    ((run_safety_checks default_config initRiskState false 100 (some 1000)
        (some (11/100)) none none).1.errors = [.volatilityExceeds]) :=
  (volatility_threshold_is_strict default_config initRiskState 100 1000 (11/100) _
      rfl (by norm_num [default_config, initRiskState]) rfl (by norm_num)
      (by norm_num [default_config]) (by norm_num)
      rfl).1 (by norm_num [default_config])

/-! ## Order lifecycle (`src/trade_executor.py`) -/

/-- `OrderStatus` enum of the source (`partially_filled` is spelled
`partiallyFilled`). -/
inductive OrderStatus where
  | pending
  | opened
  | filled
  | partiallyFilled
  | cancelled
  | rejected
  deriving DecidableEq, Repr

/-- An order dict as built by `TradeExecutor.create_order` /
mutated by `_mock_execute` and `cancel_order` (fields not touched by
the modelled operations are omitted; `cancelled_at` records whether
the cancellation timestamp was set). -/
structure Order where
  pair : String
  typ : String
  amount : ℚ
  price : ℚ
  status : OrderStatus
  filled_price : Option ℚ
  cancelled_at : Bool
  deriving DecidableEq, Repr

/-- A position entry of `self.positions`. -/
structure Position where
  size : ℚ
  entry_price : ℚ
  total_cost : ℚ
  deriving DecidableEq, Repr

/-- The entry created when a pair is first seen
(`{'size': 0, 'entry_price': 0, 'total_cost': 0}`). -/
def emptyPosition : Position := ⟨0, 0, 0⟩

/-- `TradeExecutor._update_positions(order)` acting on the order's
pair's position; `typ = order['type']`, `amount = order['amount']`,
`filled_price = order['filled_price']`. -/
def update_positions (position : Position) (typ : String)
    (amount filled_price : ℚ) : Position :=
  if typ = "BUY" then
    let new_size := amount / filled_price
    let total_cost := position.total_cost + amount
    let total_size := position.size + new_size
    { size := total_size
      entry_price := if 0 < total_size then total_cost / total_size else 0
      total_cost := total_cost }
  else if typ = "SELL" then
    let sell_size := amount / filled_price
    let new_size := max 0 (position.size - sell_size)
    if new_size = 0 then { size := new_size, entry_price := 0, total_cost := 0 }
    else { position with size := new_size }
  else position

/-- Mutable state of a `TradeExecutor`.  Python's `active_orders` dict
and `order_history` list hold references to shared order objects;
this is modelled by a registry `orders` of order objects keyed by id,
with `active_orders` and `order_history` holding ids. -/
structure ExecutorState where
  orders : List (String × Order)
  active_orders : List String
  order_history : List String
  deriving DecidableEq, Repr

/-- A freshly constructed `TradeExecutor`. -/
def initExecutor : ExecutorState := ⟨[], [], []⟩

/-- The execution path of `execute_trade` after the safety checks
(lines 67-88 with no exchange client): `_mock_execute` marks the order
FILLED at its own price, then the filled order is stored in
`active_orders` and appended to `order_history` (position updates are
modelled by `update_positions`). -/
def record_executed_order (st : ExecutorState) (id : String) (o : Order) :
    ExecutorState :=
  let o := { o with status := OrderStatus.filled, filled_price := some o.price }
  { orders := st.orders ++ [(id, o)]
    active_orders := st.active_orders ++ [id]
    order_history := st.order_history ++ [id] }

/-- `TradeExecutor.cancel_order(order_id)`: fails only when the id is
absent from `active_orders`; otherwise marks the shared order object
cancelled, stamps `cancelled_at`, and deletes the id from
`active_orders`.  Nothing is appended to `order_history`. -/
def cancel_order (st : ExecutorState) (id : String) : Bool × ExecutorState :=
  if id ∈ st.active_orders then
    (true,
      { orders := st.orders.map (fun p =>
          if p.1 = id then
            (p.1, { p.2 with status := OrderStatus.cancelled, cancelled_at := true })
          else p)
        active_orders := st.active_orders.filter (fun k => k != id)
        order_history := st.order_history })
  else (false, st)

/-- `self.active_orders[order_id]` / registry lookup. -/
def getOrder (st : ExecutorState) (id : String) : Option Order :=
  st.orders.lookup id

/-- C4 (counterexample): `execute_trade` stores the FILLED order in
`active_orders`, and `cancel_order` checks only membership there —
so cancelling a FILLED (terminal) order succeeds, and no cancellation
record is appended to `order_history` (the history is unchanged). -/
theorem cancel_order_accepts_filled_order :
    getOrder (record_executed_order initExecutor "order1"
        ⟨"BTC/USD", "BUY", 100, 45000, .pending, none, false⟩) "order1" =
      some ⟨"BTC/USD", "BUY", 100, 45000, .filled, some 45000, false⟩ ∧
    ((cancel_order (record_executed_order initExecutor "order1"
        ⟨"BTC/USD", "BUY", 100, 45000, .pending, none, false⟩) "order1").1 = true) ∧
    ((cancel_order (record_executed_order initExecutor "order1"
        ⟨"BTC/USD", "BUY", 100, 45000, .pending, none, false⟩) "order1").2.order_history =
      (record_executed_order initExecutor "order1"
        ⟨"BTC/USD", "BUY", 100, 45000, .pending, none, false⟩).order_history) := by
  refine ⟨?_, ?_, ?_⟩ <;>
    simp [getOrder, record_executed_order, cancel_order, initExecutor, List.lookup]

/-- C4 (amended): `cancel_order(id)` succeeds for every id present in
`active_orders` regardless of the order's status (FILLED orders
included); on success it marks the order cancelled, stamps the
cancellation time, and removes the id from the active set — appending
nothing to the order history.  For an unknown id it returns a failure
and leaves the executor state unchanged. -/
theorem cancel_order_spec (st : ExecutorState) (id : String) :
    (id ∉ st.active_orders → cancel_order st id = (false, st)) ∧
    (id ∈ st.active_orders →
      (cancel_order st id).1 = true ∧
      id ∉ (cancel_order st id).2.active_orders ∧
      (∀ k, k ≠ id → ((k ∈ (cancel_order st id).2.active_orders) ↔ k ∈ st.active_orders)) ∧
      (cancel_order st id).2.order_history = st.order_history ∧
      (∀ o, (id, o) ∈ (cancel_order st id).2.orders →
        o.status = OrderStatus.cancelled ∧ o.cancelled_at = true)) := by
  constructor
  · intro h
    simp [cancel_order, h]
  · intro h
    unfold cancel_order
    rw [if_pos h]
    refine ⟨rfl, ?_, ?_, rfl, ?_⟩
    · simp [List.mem_filter]
    · intro k hk
      simp [List.mem_filter, hk]
    · intro o ho
      simp only [List.mem_map] at ho
      obtain ⟨p, hp, hpe⟩ := ho
      by_cases hpk : p.1 = id
      · rw [if_pos hpk] at hpe
        have ho2 : o = { p.2 with status := OrderStatus.cancelled, cancelled_at := true } := by
          have h2 := congrArg Prod.snd hpe
          simpa using h2.symm
        subst ho2
        exact ⟨rfl, rfl⟩
      · rw [if_neg hpk] at hpe
        exact absurd (congrArg Prod.fst hpe) hpk

/-- Witness for `cancel_order_spec`: cancelling the recorded order of
`cancel_order_accepts_filled_order`'s scenario succeeds and leaves the
one-element history unchanged. -/
theorem cancel_order_spec_witness :
    ((cancel_order (record_executed_order initExecutor "order1"
        ⟨"BTC/USD", "BUY", 100, 45000, .pending, none, false⟩) "order1").1 = true) ∧
    ((cancel_order (record_executed_order initExecutor "order1"
        ⟨"BTC/USD", "BUY", 100, 45000, .pending, none, false⟩) "order1").2.order_history =
      ["order1"]) := by
  have h := (cancel_order_spec (record_executed_order initExecutor "order1"
      ⟨"BTC/USD", "BUY", 100, 45000, .pending, none, false⟩) "order1").2
      (by simp [record_executed_order, initExecutor])
  exact ⟨h.1, h.2.2.2.1.trans (by simp [record_executed_order, initExecutor])⟩

/-- Branch lemma: `_update_positions` on a BUY order. -/
theorem update_positions_buy (pos : Position) (amount fp : ℚ) :
    update_positions pos "BUY" amount fp =
      { size := pos.size + amount / fp
        entry_price := if 0 < pos.size + amount / fp
          then (pos.total_cost + amount) / (pos.size + amount / fp) else 0
        total_cost := pos.total_cost + amount } := by
  simp [update_positions]

/-- Branch lemma: `_update_positions` on a SELL order. -/
theorem update_positions_sell (pos : Position) (amount fp : ℚ) :
    update_positions pos "SELL" amount fp =
      if max 0 (pos.size - amount / fp) = 0 then ⟨0, 0, 0⟩
      else { pos with size := max 0 (pos.size - amount / fp) } := by
  unfold update_positions
  rw [if_neg (by decide : ¬("SELL" : String) = "BUY"),
    if_pos (rfl : ("SELL" : String) = "SELL")]
  dsimp only
  split
  next h => rw [h]
  next h => rfl

/-- C5: weighted-average-cost position accounting.  A buy adds
`amount / fill_price` to the size and re-averages the entry price as
`(total_cost + amount) / new_size`; a sell clamps the size at zero and
resets the entry price and cost basis when the position closes; the
size never becomes negative; and the spec's concrete scenario (buy 100
at 50000, then sell 100 at 50000 from an empty position) produces
size 0.002 / entry 50000 and then a fully reset position. -/
theorem update_positions_weighted_average_cost
    (pos : Position) (amount fp : ℚ)
    (hfp : 0 < fp) (hamt : 0 ≤ amount) (hsz : 0 ≤ pos.size) :
    ((update_positions pos "BUY" amount fp).size = pos.size + amount / fp) ∧
    (0 < pos.size + amount / fp →
      (update_positions pos "BUY" amount fp).entry_price =
        (pos.total_cost + amount) / (pos.size + amount / fp)) ∧
    ((update_positions pos "SELL" amount fp).size = max 0 (pos.size - amount / fp)) ∧
    ((update_positions pos "SELL" amount fp).size = 0 →
      (update_positions pos "SELL" amount fp).entry_price = 0 ∧
      (update_positions pos "SELL" amount fp).total_cost = 0) ∧
    (0 ≤ (update_positions pos "BUY" amount fp).size) ∧
    (0 ≤ (update_positions pos "SELL" amount fp).size) ∧
    (update_positions emptyPosition "BUY" 100 50000 = ⟨1/500, 50000, 100⟩) ∧
    (update_positions (update_positions emptyPosition "BUY" 100 50000)
        "SELL" 100 50000 = ⟨0, 0, 0⟩) := by
  have hdiv : 0 ≤ amount / fp := div_nonneg hamt (le_of_lt hfp)
  refine ⟨?_, ?_, ?_, ?_, ?_, ?_, ?_, ?_⟩
  · rw [update_positions_buy]
  · intro hpos
    rw [update_positions_buy]
    exact if_pos hpos
  · rw [update_positions_sell]
    split
    next h => exact h.symm
    next h => rfl
  · rw [update_positions_sell]
    split
    next h => exact fun _ => ⟨rfl, rfl⟩
    next h => exact fun hz => absurd hz h
  · rw [update_positions_buy]
    exact add_nonneg hsz hdiv
  · rw [update_positions_sell]
    split
    next h => norm_num
    next h => exact le_max_left 0 _
  · rw [update_positions_buy]
    norm_num [emptyPosition]
  · rw [update_positions_buy, update_positions_sell]
    norm_num [emptyPosition]

/-- Witness for `update_positions_weighted_average_cost` at the
concrete scenario of the spec. -/
theorem update_positions_weighted_average_cost_witness :
    update_positions emptyPosition "BUY" 100 50000 = ⟨1/500, 50000, 100⟩ :=
  (update_positions_weighted_average_cost emptyPosition 100 50000
    (by norm_num) (by norm_num) (by norm_num [emptyPosition])).2.2.2.2.2.2.1

/-! ## Order book engine (`src/modules/orderbook_engine.py`) -/

/-- `OrderBookEngine.calculate_bid_ask_imbalance(symbol)` acting on the
symbol's stored level lists (each level `(price, qty)`).  The
symbol-not-present early `return None` is the caller passing empty
lists is modelled separately: absent-symbol and empty-list inputs both
yield `none` in the source (`if symbol not in self.bids ...` /
`if not bids or not asks`). -/
def calculate_bid_ask_imbalance (bids asks : List (ℚ × ℚ)) : Option ℚ :=
  if bids = [] ∨ asks = [] then none
  else
    let bid_volume := (bids.map Prod.snd).sum
    let ask_volume := (asks.map Prod.snd).sum
    let total_volume := bid_volume + ask_volume
    if total_volume = 0 then none
    else some ((bid_volume - ask_volume) / total_volume)

/-- C6: with non-negative level quantities, whenever both sides are
non-empty and the total quantity is positive the imbalance is defined
and lies in `[-1, 1]`; with an empty side or zero total quantity the
result is the explicit no-signal value `none`, never the number 0. -/
theorem imbalance_bounded_or_no_signal (bids asks : List (ℚ × ℚ))
    (hb : ∀ q ∈ bids.map Prod.snd, 0 ≤ q)
    (ha : ∀ q ∈ asks.map Prod.snd, 0 ≤ q) :
    (bids ≠ [] → asks ≠ [] →
      0 < (bids.map Prod.snd).sum + (asks.map Prod.snd).sum →
      ∃ v, calculate_bid_ask_imbalance bids asks = some v ∧ -1 ≤ v ∧ v ≤ 1) ∧
    ((bids = [] ∨ asks = [] ∨
        (bids.map Prod.snd).sum + (asks.map Prod.snd).sum = 0) →
      calculate_bid_ask_imbalance bids asks = none) := by
  have hbs : 0 ≤ (bids.map Prod.snd).sum := List.sum_nonneg hb
  have has : 0 ≤ (asks.map Prod.snd).sum := List.sum_nonneg ha
  constructor
  · intro hbne hane htot
    have heq : calculate_bid_ask_imbalance bids asks =
        some (((bids.map Prod.snd).sum - (asks.map Prod.snd).sum) /
          ((bids.map Prod.snd).sum + (asks.map Prod.snd).sum)) := by
      simp only [calculate_bid_ask_imbalance]
      rw [if_neg (by simp [hbne, hane]), if_neg (ne_of_gt htot)]
    refine ⟨_, heq, ?_, ?_⟩
    · rw [le_div_iff₀ htot]
      linarith
    · rw [div_le_one htot]
      linarith
  · intro hcase
    rcases hcase with h | h | h
    · simp [calculate_bid_ask_imbalance, h]
    · simp [calculate_bid_ask_imbalance, h]
    · simp [calculate_bid_ask_imbalance, h]

/-- Witness for `imbalance_bounded_or_no_signal`: a one-level book with
bid qty 3 and ask qty 1 yields imbalance 1/2. -/
theorem imbalance_bounded_or_no_signal_witness :
    ∃ v, calculate_bid_ask_imbalance [(100, 3)] [(101, 1)] = some v ∧
      -1 ≤ v ∧ v ≤ 1 :=
  (imbalance_bounded_or_no_signal [(100, 3)] [(101, 1)]
      (by norm_num) (by norm_num)).1
    (by simp) (by simp) (by norm_num)

/-! ## Signal fusion (`src/strategy_manager.py`) -/

/-- The action strings `'LONG'` / `'SHORT'` / `'HOLD'` of
`StrategyManager.get_combined_signal`. -/
inductive TradeAction where
  | long
  | short
  | hold
  deriving DecidableEq, Repr

/-- The action-classification branch of `get_combined_signal`. -/
def classify_action (c : ℚ) : TradeAction :=
  if 2/10 < c then .long
  else if c < -(2/10) then .short
  else .hold

/-- `StrategyManager.get_combined_signal(symbol)` after the alpha
signals have been gathered: the weighted combination (with the
probability-style volatility source remapped by `(v - 0.5) * 2`)
and the action classification. -/
def get_combined_signal (speed alt_data microstructure options_flow volatility : ℚ) :
    ℚ × TradeAction :=
  let combined_signal :=
    (25/100) * speed + (20/100) * alt_data + (25/100) * microstructure +
    (15/100) * options_flow + (15/100) * ((volatility - 1/2) * 2)
  (combined_signal, classify_action combined_signal)

/-- Classification thresholds are strict and exhaustive. -/
theorem classify_action_spec (c : ℚ) :
    (classify_action c = .long ↔ 2/10 < c) ∧
    (classify_action c = .short ↔ c < -(2/10)) ∧
    (classify_action c = .hold ↔ -(2/10) ≤ c ∧ c ≤ 2/10) := by
  unfold classify_action
  split_ifs with h1 h2
  · refine ⟨by simp [h1], ?_, ?_⟩
    · simp only [reduceCtorEq, false_iff]
      intro h
      linarith
    · simp only [reduceCtorEq, false_iff, not_and, not_le]
      intro h
      linarith
  · refine ⟨?_, by simp [h2], ?_⟩
    · simp only [reduceCtorEq, false_iff, not_lt]
      linarith
    · simp only [reduceCtorEq, false_iff, not_and, not_le]
      intro h
      linarith
  · refine ⟨?_, ?_, ?_⟩
    · simp only [reduceCtorEq, false_iff, not_lt]
      linarith
    · simp only [reduceCtorEq, false_iff, not_lt]
      linarith
    · simp only [true_iff]
      constructor <;> linarith

/-- C8: the composite action is directional-long exactly when the
composite is strictly above +0.2, directional-short exactly when
strictly below −0.2, and neutral otherwise; the probability-style
volatility source is remapped by `2*(x − 0.5)`, so with every
symmetric source at 0 and volatility at its 0.5 neutral default the
composite is exactly 0 and the action is neutral. -/
theorem combined_signal_classification
    (speed alt_data microstructure options_flow volatility : ℚ) :
    ((get_combined_signal speed alt_data microstructure options_flow volatility).2 = .long ↔
      2/10 < (get_combined_signal speed alt_data microstructure options_flow volatility).1) ∧
    ((get_combined_signal speed alt_data microstructure options_flow volatility).2 = .short ↔
      (get_combined_signal speed alt_data microstructure options_flow volatility).1 < -(2/10)) ∧
    ((get_combined_signal speed alt_data microstructure options_flow volatility).2 = .hold ↔
      -(2/10) ≤ (get_combined_signal speed alt_data microstructure options_flow volatility).1 ∧
      (get_combined_signal speed alt_data microstructure options_flow volatility).1 ≤ 2/10) ∧
    get_combined_signal 0 0 0 0 (1/2) = (0, .hold) := by
  have h2 : (get_combined_signal speed alt_data microstructure options_flow volatility).2 =
      classify_action
        (get_combined_signal speed alt_data microstructure options_flow volatility).1 := rfl
  rw [h2]
  have hs := classify_action_spec
    (get_combined_signal speed alt_data microstructure options_flow volatility).1
  exact ⟨hs.1, hs.2.1, hs.2.2, by norm_num [get_combined_signal, classify_action]⟩

/-! ## Microstructure model (`src/modules/microstructure_model.py`) -/

/-- `MicrostructureModel.get_signal(symbol)` after the order-book data
has been gathered: `imbalance` is `calculate_bid_ask_imbalance`'s
result, `buy_wall` / `sell_wall` are `detect_large_walls`'s entries
(tested with Python truthiness), `cvd` is `_detect_cvd_divergence`'s
result, and `ok = false` models the `except` path returning `0.0`. -/
def microstructure_get_signal (ok : Bool) (imbalance : Option ℚ)
    (buy_wall sell_wall : Option ℚ) (cvd : Option ℚ) : ℚ :=
  if ok then
    let s0 : ℚ := 0
    let s1 := match imbalance with
      | some i => s0 + i * (6/10)
      | none => s0
    let s2 := if truthy buy_wall then s1 + 3/10
      else if truthy sell_wall then s1 - 3/10 else s1
    let s3 := match cvd with
      | some c => s2 + c * (1/10)
      | none => s2
    max (-1) (min 1 s3)
  else 0

/-- C10: the microstructure signal is totally bounded — every input
state (and the exception path) yields a value in `[-1, 1]`. -/
theorem microstructure_signal_bounded (ok : Bool)
    (imbalance buy_wall sell_wall cvd : Option ℚ) :
    -1 ≤ microstructure_get_signal ok imbalance buy_wall sell_wall cvd ∧
    microstructure_get_signal ok imbalance buy_wall sell_wall cvd ≤ 1 := by
  unfold microstructure_get_signal
  split
  · dsimp only
    exact ⟨le_max_left _ _, max_le (by norm_num) (min_le_left _ _)⟩
  · norm_num

/-! ## Rolling window (`src/modules/fast_market_listener.py`) -/

/-- One `(price, timestamp)` sample of the per-symbol parallel deques
`price_history[symbol]` / `timestamp_history[symbol]`. -/
structure Sample where
  price : ℚ
  ts : ℚ
  deriving DecidableEq, Repr

/-- `FastMarketListener._update_price_history(symbol, price, timestamp)`
on one symbol's window: append the sample (the `deque(maxlen=1000)`
evicts from the left when full), then pop stale samples with
`timestamp < now - window_seconds` from the front. -/
def update_price_history (window_seconds : ℚ) (w : List Sample)
    (price ts : ℚ) : List Sample :=
  let w1 := w ++ [⟨price, ts⟩]
  let w2 := w1.drop (w1.length - 1000)
  w2.dropWhile (fun s => decide (s.ts < ts - window_seconds))

/-- A sequence of `_update_price_history` calls starting from the
empty window of a fresh symbol. -/
def insertAll (window_seconds : ℚ) (samples : List Sample) : List Sample :=
  samples.foldl (fun w s => update_price_history window_seconds w s.price s.ts) []

/-- After `dropWhile (· < c)` on a timestamp-sorted list, every
remaining timestamp is at least `c`. -/
theorem dropWhile_stale_of_pairwise (c : ℚ) :
    ∀ (l : List Sample), l.Pairwise (fun a b => a.ts ≤ b.ts) →
      ∀ s ∈ l.dropWhile (fun s => decide (s.ts < c)), c ≤ s.ts := by
  intro l
  induction l with
  | nil => simp
  | cons a t ih =>
    intro hp s hs
    rw [List.dropWhile_cons] at hs
    by_cases hc : a.ts < c
    · rw [if_pos (by simpa using hc)] at hs
      exact ih (List.Pairwise.of_cons hp) s hs
    · rw [if_neg (by simpa using hc)] at hs
      rcases List.mem_cons.mp hs with rfl | hs
      · exact not_lt.mp hc
      · exact le_trans (not_lt.mp hc) ((List.pairwise_cons.mp hp).1 s hs)

/-- One insert yields a sublist of the old window plus the new sample. -/
theorem update_price_history_sublist (window_seconds : ℚ) (w : List Sample)
    (price ts : ℚ) :
    List.Sublist (update_price_history window_seconds w price ts)
      (w ++ [⟨price, ts⟩]) := by
  unfold update_price_history
  exact (List.dropWhile_sublist _).trans (List.drop_sublist _ _)

/-- The window only ever holds previously inserted samples. -/
theorem insertAll_sublist (window_seconds : ℚ) :
    ∀ samples : List Sample,
      List.Sublist (insertAll window_seconds samples) samples := by
  intro samples
  induction samples using List.reverseRecOn with
  | nil => simp [insertAll]
  | append_singleton l s ih =>
    have hfold : insertAll window_seconds (l ++ [s]) =
        update_price_history window_seconds (insertAll window_seconds l) s.price s.ts := by
      simp [insertAll, List.foldl_append]
    rw [hfold]
    exact (update_price_history_sublist _ _ _ _).trans
      (List.Sublist.append ih (List.Sublist.refl _))

/-- Single-insert invariant: inserting into a timestamp-sorted window
whose samples are no newer than the inserted timestamp leaves at most
1000 samples and nothing strictly older than `ts - window_seconds`. -/
theorem update_price_history_invariant (window_seconds : ℚ) (w : List Sample)
    (price ts : ℚ)
    (hsorted : w.Pairwise (fun a b => a.ts ≤ b.ts))
    (hle : ∀ s ∈ w, s.ts ≤ ts) :
    (update_price_history window_seconds w price ts).length ≤ 1000 ∧
    ∀ s ∈ update_price_history window_seconds w price ts,
      ts - window_seconds ≤ s.ts := by
  constructor
  · have h1 : ((((w ++ [(⟨price, ts⟩ : Sample)]).drop ((w ++ [(⟨price, ts⟩ : Sample)]).length - 1000)).dropWhile
        (fun s => decide (s.ts < ts - window_seconds))).length ≤
        ((w ++ [(⟨price, ts⟩ : Sample)]).drop ((w ++ [(⟨price, ts⟩ : Sample)]).length - 1000)).length) :=
      (List.dropWhile_sublist _).length_le
    have h2 : ((w ++ [(⟨price, ts⟩ : Sample)]).drop ((w ++ [(⟨price, ts⟩ : Sample)]).length - 1000)).length =
        (w ++ [(⟨price, ts⟩ : Sample)]).length - ((w ++ [(⟨price, ts⟩ : Sample)]).length - 1000) :=
      List.length_drop _ _
    unfold update_price_history
    dsimp only
    omega
  · have hw1 : (w ++ [(⟨price, ts⟩ : Sample)]).Pairwise (fun a b => a.ts ≤ b.ts) := by
      rw [List.pairwise_append]
      refine ⟨hsorted, List.pairwise_singleton _ _, fun a ha b hb => ?_⟩
      rcases List.mem_singleton.mp hb with rfl
      exact hle a ha
    have hw2 : ((w ++ [(⟨price, ts⟩ : Sample)]).drop
        ((w ++ [(⟨price, ts⟩ : Sample)]).length - 1000)).Pairwise (fun a b => a.ts ≤ b.ts) :=
      hw1.sublist (List.drop_sublist _ _)
    exact dropWhile_stale_of_pairwise _ _ hw2

/-- C2: for every sequence of inserted samples with non-decreasing
timestamps, immediately after every insert the window holds at most
1000 samples and no sample strictly older than the newest inserted
timestamp minus `window_seconds`. -/
theorem rolling_window_invariant (window_seconds : ℚ) (samples : List Sample)
    (hmono : samples.Pairwise (fun a b => a.ts ≤ b.ts))
    (n : Nat) (hn : n < samples.length) :
    (insertAll window_seconds (samples.take (n+1))).length ≤ 1000 ∧
    ∀ s ∈ insertAll window_seconds (samples.take (n+1)),
      (samples.get ⟨n, hn⟩).ts - window_seconds ≤ s.ts := by
  have htake : samples.take (n+1) = samples.take n ++ [samples.get ⟨n, hn⟩] := by
    rw [List.take_succ]
    simp [List.getElem?_eq_getElem hn]
  have hfold : insertAll window_seconds (samples.take (n+1)) =
      update_price_history window_seconds (insertAll window_seconds (samples.take n))
        (samples.get ⟨n, hn⟩).price (samples.get ⟨n, hn⟩).ts := by
    simp only [insertAll]
    rw [htake, List.foldl_append]
    simp only [List.foldl_cons, List.foldl_nil]
  have hsorted_take : (samples.take n ++ [samples.get ⟨n, hn⟩]).Pairwise
      (fun a b => a.ts ≤ b.ts) :=
    htake ▸ hmono.sublist (List.take_sublist _ _)
  have hbound : ∀ a ∈ samples.take n, a.ts ≤ (samples.get ⟨n, hn⟩).ts := by
    intro a hain
    exact (List.pairwise_append.mp hsorted_take).2.2 a hain _ (List.mem_singleton_self _)
  have hwin_sorted : (insertAll window_seconds (samples.take n)).Pairwise
      (fun a b => a.ts ≤ b.ts) :=
    (hmono.sublist (List.take_sublist _ _)).sublist (insertAll_sublist _ _)
  have hwin_le : ∀ s ∈ insertAll window_seconds (samples.take n),
      s.ts ≤ (samples.get ⟨n, hn⟩).ts := fun s hs =>
    hbound s ((insertAll_sublist _ _).subset hs)
  rw [hfold]
  exact update_price_history_invariant _ _ _ _ hwin_sorted hwin_le

/-- Witness for `rolling_window_invariant`: inserting timestamps 0 and
100 with a 30-second window keeps at most 1000 samples, all within 30
seconds of timestamp 100. -/
theorem rolling_window_invariant_witness :
    (insertAll 30 [⟨1, 0⟩, ⟨2, 100⟩]).length ≤ 1000 ∧
    ∀ s ∈ insertAll 30 [⟨1, 0⟩, ⟨2, 100⟩], (70 : ℚ) ≤ s.ts := by
  have h := rolling_window_invariant 30 [⟨1, 0⟩, ⟨2, 100⟩]
    (by norm_num [List.pairwise_cons]) 1 (by norm_num)
  simp only [List.take_succ_cons, List.take_zero, List.get] at h
  refine ⟨h.1, fun s hs => ?_⟩
  have h2 := h.2 s hs
  norm_num at h2
  exact h2

/-! ## WebSocket feed reconnect loop (`src/websocket_price_feed.py`) -/

/-- `self.max_reconnect_attempts`. -/
def max_reconnect_attempts : Nat := 10

/-- The feed state the `listen` / `_reconnect` loop reads and writes:
`is_running`, `is_connected`, and `reconnect_attempts`. -/
structure FeedState where
  is_running : Bool
  is_connected : Bool
  reconnect_attempts : Nat
  deriving DecidableEq, Repr

/-- One iteration's stimulus in `WebSocketPriceFeed.listen`: a parsed
or unparsed message, a `recv` timeout (ping path), or a
`ConnectionClosed` (whose handler runs `_reconnect`; `connectOk` is
whether the reconnect's `connect()` call succeeds). -/
inductive FeedEvent where
  | message
  | timeout
  | connectionClosed (connectOk : Bool)
  deriving DecidableEq, Repr

/-- One iteration of the `while self.is_running` loop of `listen`
(lines 230-269) together with `_reconnect` (lines 279-292).  Returns
the successor state and whether this iteration initiated a `connect()`
attempt.  When `is_running` is false the loop has exited and nothing
happens; when disconnected the loop only sleeps; a `ConnectionClosed`
clears `is_connected` and calls `_reconnect`, which either goes
dormant (`is_running := false`) when the attempt cap is already
reached, or increments the counter and calls `connect()` — a success
sets `is_connected` and resets the counter to 0. -/
def feedStep (s : FeedState) (e : FeedEvent) : FeedState × Bool :=
  if s.is_running = false then (s, false)
  else if s.is_connected = false then (s, false)
  else match e with
  | .message => (s, false)
  | .timeout => (s, false)
  | .connectionClosed connectOk =>
    let s1 : FeedState := { s with is_connected := false }
    if max_reconnect_attempts ≤ s1.reconnect_attempts then
      ({ s1 with is_running := false }, false)
    else
      let s2 : FeedState := { s1 with reconnect_attempts := s1.reconnect_attempts + 1 }
      if connectOk then
        ({ s2 with is_connected := true, reconnect_attempts := 0 }, true)
      else (s2, true)

/-- Run the loop over a sequence of stimuli, recording whether any
iteration initiated a `connect()` attempt. -/
def feedRun (s : FeedState) (es : List FeedEvent) : FeedState × Bool :=
  es.foldl (fun acc e =>
    let r := feedStep acc.1 e
    (r.1, acc.2 || r.2)) (s, false)

/-- Once the loop has exited (`is_running = false`), no sequence of
stimuli changes the state or initiates a connect. -/
theorem feedRun_halted (es : List FeedEvent) :
    ∀ s : FeedState, s.is_running = false →
      feedRun s es = (s, false) := by
  induction es with
  | nil => intro s _; rfl
  | cons e t ih =>
    intro s hs
    have hstep : feedStep s e = (s, false) := by
      unfold feedStep
      rw [if_pos hs]
    show feedRun s (e :: t) = (s, false)
    unfold feedRun at ih ⊢
    simp only [List.foldl_cons, hstep]
    exact ih s hs

/-- C9: when the `ConnectionClosed` handler runs with the reconnect
counter already at `max_reconnect_attempts`, `_reconnect` flips
`is_running` off WITHOUT initiating a connect, and from that dormant
state every subsequent step of the listen/reconnect loop neither
changes the state nor initiates another automatic reconnect or
connect — only an external restart (which resets the counter) can.
Below the cap, each failed reconnect increments the consecutive-failure
counter and a successful connect resets it to 0. -/
theorem feed_dormant_after_max_reconnect_attempts
    (s : FeedState) (ok : Bool) (es : List FeedEvent)
    (hrun : s.is_running = true) (hconn : s.is_connected = true)
    (hmax : max_reconnect_attempts ≤ s.reconnect_attempts) :
    (feedStep s (.connectionClosed ok)).2 = false ∧
    (feedStep s (.connectionClosed ok)).1.is_running = false ∧
    feedRun (feedStep s (.connectionClosed ok)).1 es =
      ((feedStep s (.connectionClosed ok)).1, false) ∧
    (∀ t : FeedState, t.is_running = true → t.is_connected = true →
      t.reconnect_attempts < max_reconnect_attempts →
      (feedStep t (.connectionClosed false)).1 =
        ⟨t.is_running, false, t.reconnect_attempts + 1⟩ ∧
      (feedStep t (.connectionClosed true)).1 = ⟨t.is_running, true, 0⟩ ∧
      (feedStep t (.connectionClosed false)).2 = true) := by
  have hstep : feedStep s (.connectionClosed ok) =
      ({ s with is_connected := false, is_running := false }, false) := by
    unfold feedStep
    rw [if_neg (by simp [hrun]), if_neg (by simp [hconn])]
    simp only
    rw [if_pos hmax]
  refine ⟨by rw [hstep], by rw [hstep], ?_, ?_⟩
  · rw [hstep]
    exact feedRun_halted es _ rfl
  · intro t htr htc htlt
    have h1 : feedStep t (.connectionClosed false) =
        (⟨t.is_running, false, t.reconnect_attempts + 1⟩, true) := by
      unfold feedStep
      rw [if_neg (by simp [htr]), if_neg (by simp [htc])]
      simp only
      rw [if_neg (Nat.not_le.mpr htlt), if_neg (by simp)]
    have h2 : feedStep t (.connectionClosed true) =
        (⟨t.is_running, true, 0⟩, true) := by
      unfold feedStep
      rw [if_neg (by simp [htr]), if_neg (by simp [htc])]
      simp only
      rw [if_neg (Nat.not_le.mpr htlt)]
      simp
    exact ⟨by rw [h1], by rw [h2], by rw [h1]⟩

/-- Witness for `feed_dormant_after_max_reconnect_attempts`: a
connected feed whose counter sits at the cap of 10 goes dormant on the
next close and retries on no later iteration. -/
theorem feed_dormant_witness :
    (feedStep ⟨true, true, 10⟩ (.connectionClosed false)).2 = false ∧
    (feedStep ⟨true, true, 10⟩ (.connectionClosed false)).1.is_running = false ∧
    feedRun (feedStep ⟨true, true, 10⟩ (.connectionClosed false)).1
        [.message, .timeout, .connectionClosed true] =
      ((feedStep ⟨true, true, 10⟩ (.connectionClosed false)).1, false) := by
  have h := feed_dormant_after_max_reconnect_attempts ⟨true, true, 10⟩ false
    [.message, .timeout, .connectionClosed true] rfl rfl (by norm_num [max_reconnect_attempts])
  exact ⟨h.1, h.2.1, h.2.2.1⟩

/-! ## Volatility expansion (`_detect_volatility_expansion` in
`src/modules/fast_market_listener.py`).  Because `np.std` takes a
square root, this part of the embedding lives in `ℝ`. -/

/-- `np.diff(prices) / prices[:-1]` — period-over-period returns. -/
noncomputable def returns (prices : List ℝ) : List ℝ :=
  List.zipWith (fun prev cur => (cur - prev) / prev) prices prices.tail

/-- `np.mean`. -/
noncomputable def npMean (l : List ℝ) : ℝ := l.sum / l.length

/-- `np.std` — population standard deviation. -/
noncomputable def npStd (l : List ℝ) : ℝ :=
  Real.sqrt (npMean (l.map (fun x => (x - npMean l) ^ 2)))

/-- `np.std(returns_half) if len(returns_half) > 0 else 0.0` where
`returns_half = np.diff(half)/half[:-1] if len(half) > 1 else []`. -/
noncomputable def half_std (half : List ℝ) : ℝ :=
  let rs := if 1 < half.length then returns half else []
  if 0 < rs.length then npStd rs else 0

/-- `(prices[-1] - prices[0]) / prices[0] if prices[0] != 0 else 0`. -/
noncomputable def price_change (prices : List ℝ) : ℝ :=
  if prices.headD 0 ≠ 0 then (prices.getLastD 0 - prices.headD 0) / prices.headD 0
  else 0

/-- `vol_second - vol_first`: the second-half return stdev minus the
first-half return stdev, the halves split at the index midpoint. -/
noncomputable def vol_expansion_delta (prices : List ℝ) : ℝ :=
  half_std (prices.drop (prices.length / 2)) -
    half_std (prices.take (prices.length / 2))

/-- `FastMarketListener._detect_volatility_expansion(symbol)` on the
symbol's price list (the symbol-absent early `return None` is the
caller's concern). -/
noncomputable def detect_volatility_expansion (min_data_points : Nat)
    (prices : List ℝ) : Option ℝ :=
  if prices.length < min_data_points * 2 then none
  else if 1/1000 < vol_expansion_delta prices then
    (if 0 < price_change prices then some 1 else some (-1))
  else if vol_expansion_delta prices < -(1/1000) then some 0
  else some 0

/-- C7: with at least `2*min_data_points` samples the expansion signal
is non-zero only when the stdev delta is STRICTLY greater than 0.001
(sign taken from the whole-window relative price change); every delta
at most 0.001 — the boundary values ±0.001 and all contractions
included — yields 0. -/
theorem volatility_expansion_hysteresis (min_data_points : Nat) (prices : List ℝ)
    (h : min_data_points * 2 ≤ prices.length) :
    (vol_expansion_delta prices ≤ 1/1000 →
      detect_volatility_expansion min_data_points prices = some 0) ∧
    (1/1000 < vol_expansion_delta prices →
      detect_volatility_expansion min_data_points prices =
        some (if 0 < price_change prices then 1 else -1)) := by
  unfold detect_volatility_expansion
  rw [if_neg (not_lt.mpr h)]
  constructor
  · intro hd
    rw [if_neg (not_lt.mpr hd)]
    split
    · rfl
    · rfl
  · intro hd
    rw [if_pos hd]
    split
    next hpc => rfl
    next hpc => rfl

/-- Returns of a constant-1 price series are all zero. -/
theorem returns_replicate_one (n m : Nat) (hnm : n = m + 1) :
    returns (List.replicate n (1:ℝ)) = List.replicate m 0 := by
  subst hnm
  unfold returns
  rw [show (List.replicate (m+1) (1:ℝ)).tail = List.replicate m 1 by
    simp [List.replicate_succ]]
  have haux : ∀ k j : Nat,
      List.zipWith (fun prev cur => (cur - prev) / prev)
        (List.replicate k (1:ℝ)) (List.replicate j (1:ℝ)) =
      List.replicate (min k j) 0 := by
    intro k
    induction k with
    | zero => intro j; simp
    | succ k ih =>
      intro j
      cases j with
      | zero => simp
      | succ j =>
        simp only [List.replicate_succ, List.zipWith_cons_cons, ih]
        rw [Nat.succ_min_succ]
        simp only [List.replicate_succ]
        norm_num
  rw [haux]
  rw [min_eq_right (Nat.le_succ m)]

/-- `np.std` of an all-zero list is zero. -/
theorem npStd_replicate_zero (n : Nat) :
    npStd (List.replicate n (0:ℝ)) = 0 := by
  have h1 : npMean (List.replicate n (0:ℝ)) = 0 := by
    unfold npMean
    simp
  unfold npStd
  rw [h1]
  rw [show (List.replicate n (0:ℝ)).map (fun x => (x - 0) ^ 2) =
      List.replicate n 0 by simp]
  rw [h1, Real.sqrt_zero]

/-- The half-stdev of ten constant prices is zero. -/
theorem half_std_replicate_ten : half_std (List.replicate 10 (1:ℝ)) = 0 := by
  unfold half_std
  rw [show (List.replicate 10 (1:ℝ)).length = 10 by simp]
  rw [if_pos (show (1:Nat) < 10 by norm_num)]
  rw [returns_replicate_one 10 9 rfl]
  rw [if_pos (show 0 < (List.replicate 9 (0:ℝ)).length by simp)]
  exact npStd_replicate_zero 9

/-- A constant 20-price window has stdev delta zero. -/
theorem vol_expansion_delta_replicate :
    vol_expansion_delta (List.replicate 20 (1:ℝ)) = 0 := by
  unfold vol_expansion_delta
  rw [show (List.replicate 20 (1:ℝ)).length = 20 by simp]
  rw [show (20 : Nat) / 2 = 10 by norm_num]
  rw [show (List.replicate 20 (1:ℝ)).drop 10 = List.replicate 10 1 by
    simp [List.drop_replicate]]
  rw [show (List.replicate 20 (1:ℝ)).take 10 = List.replicate 10 1 by
    simp [List.take_replicate]]
  rw [half_std_replicate_ten]
  norm_num

/-- Witness for `volatility_expansion_hysteresis`: twenty constant
prices give a zero stdev delta (≤ 0.001) and the signal 0. -/
theorem volatility_expansion_hysteresis_witness :
    detect_volatility_expansion 10 (List.replicate 20 (1:ℝ)) = some 0 := by
  apply (volatility_expansion_hysteresis 10 (List.replicate 20 1) (by simp)).1
  rw [vol_expansion_delta_replicate]
  norm_num

end TradingBot
